import Mathlib

set_option linter.unusedVariables false

/-!
Verification of the Tambla report automation helpers: the `Retry` action
sequencer (retry.py), the `ResponseCheck` shared result slot (utils.py), and
the `ReportDetails` descriptor construction and report polling loop
(example.py).  Python values that may be `None` are modelled as `Option`;
raised exceptions as `Except Unit`; Python strings as `List Char`.
-/

/-- A deferred action as stored by `Retry.add_func` (retry.py line 66): the
partially applied callable together with its declared expectation.  The
callable's observable behaviour is a function from the 1-based attempt
number on which it is invoked to either a raised exception (`Except.error`)
or a returned value.  `expect = none` models the `NO_EXPECTATION` sentinel
of retry.py line 6; `expect = some v` models a declared expected value. -/
structure ActionSpec (V : Type) where
  behavior : Nat → Except Unit V
  expect : Option V

/-- The `Retry` instance state set up by `Retry.__init__` (retry.py lines
35-37): the action list `self.loop` and the `self.debug` flag. -/
structure Retry (V : Type) where
  loop : List (ActionSpec V)
  debug : Bool

/-- Model of `Retry.__init__(debug)`: a fresh sequencer has an empty action list. -/
def Retry.mkNew (V : Type) (debug : Bool) : Retry V :=
  ⟨[], debug⟩

/-- Model of `Retry.add_func` (retry.py lines 52-67): appends the partially applied
function and its expectation to `self.loop`; nothing is executed. -/
def Retry.add_func {V : Type} (r : Retry V) (a : ActionSpec V) : Retry V :=
  ⟨r.loop ++ [a], r.debug⟩

/-- The inner `for func, expected in self.loop` loop of one attempt of
`Retry.run` (retry.py lines 88-102).  Returns the attempt's success flag
together with how many actions were invoked during the attempt.  A raised
exception makes the attempt fail and stops it (`break`); a returned result
that differs from a present expectation likewise fails and stops the
attempt; otherwise execution continues with the next action. -/
def Retry.runAttempt {V : Type} [DecidableEq V] :
    List (ActionSpec V) → Nat → Bool × Nat
  | [], _ => (true, 0)
  | a :: rest, t =>
    match a.behavior t with
    | .error _ => (false, 1)
    | .ok result =>
      match a.expect with
      | some expected =>
        if result = expected then
          ((Retry.runAttempt rest t).fst, (Retry.runAttempt rest t).snd + 1)
        else
          (false, 1)
      | none =>
        ((Retry.runAttempt rest t).fst, (Retry.runAttempt rest t).snd + 1)

/-- The outer `for attempt in range(1, retries + 1)` loop of `Retry.run`
(retry.py lines 84-115), with `t` the next 1-based attempt number and the
last argument the number of attempts still allowed.  Returns the run's
boolean outcome together with the invocation counts of the attempts that
were actually performed, in order.  A successful attempt returns
immediately; otherwise the loop continues until attempts run out. -/
def Retry.runFull {V : Type} [DecidableEq V]
    (loop : List (ActionSpec V)) : Nat → Nat → Bool × List Nat
  | _, 0 => (false, [])
  | t, k + 1 =>
    if (Retry.runAttempt loop t).fst then
      (true, [(Retry.runAttempt loop t).snd])
    else
      ((Retry.runFull loop (t + 1) k).fst,
        (Retry.runAttempt loop t).snd :: (Retry.runFull loop (t + 1) k).snd)

/-- Model of `Retry.run(retries, delay)` (retry.py lines 69-115): runs up to
`retries` attempts starting at attempt 1 and returns the boolean outcome.
The `delay` argument only feeds `time.sleep` between attempts (line 112)
and has no effect on the result or on any state. -/
def Retry.run {V : Type} [DecidableEq V] (r : Retry V) (retries delay : Nat) : Bool :=
  (Retry.runFull r.loop 1 retries).fst

/-- The result of `Retry.run` paired with the instance state after the call.  The body of
`run` reads `self.loop` (line 88) and `self.debug` (through `_log`) but
assigns only the local variables `attempt`, `success`, `func`, `expected`
and `result`, so the instance after the call is the instance before it. -/
def Retry.runState {V : Type} [DecidableEq V] (r : Retry V) (retries delay : Nat) :
    Bool × Retry V :=
  (Retry.run r retries delay, r)

/-- Number of attempts `Retry.run(retries, delay)` actually performs. -/
def Retry.attemptsMade {V : Type} [DecidableEq V]
    (loop : List (ActionSpec V)) (retries : Nat) : Nat :=
  (Retry.runFull loop 1 retries).snd.length

/-- Total number of times the `j`-th action of the list (1-based) is
invoked during `Retry.run(retries, delay)`: the inner loop invokes actions
`1..n` in order during an attempt that invokes `n` actions, so action `j`
runs once in every attempt whose invocation count is at least `j`. -/
def Retry.invocations {V : Type} [DecidableEq V]
    (loop : List (ActionSpec V)) (retries j : Nat) : Nat :=
  ((Retry.runFull loop 1 retries).snd.filter (fun n => decide (j ≤ n))).length

/-- The action neither raises nor mismatches on attempt `t`: it returns a
value, and its expectation, when present, equals that value. -/
def ActionSpec.passes {V : Type} (a : ActionSpec V) (t : Nat) : Prop :=
  ∃ r, a.behavior t = .ok r ∧ (a.expect = none ∨ a.expect = some r)

/-- The action fails on attempt `t`: it raises, or it returns a value
different from its present expected value. -/
def ActionSpec.fails {V : Type} (a : ActionSpec V) (t : Nat) : Prop :=
  (∃ e, a.behavior t = .error e) ∨
    (∃ r w, a.behavior t = .ok r ∧ a.expect = some w ∧ r ≠ w)

lemma Retry.runFull_zero {V : Type} [DecidableEq V]
    (loop : List (ActionSpec V)) (t : Nat) :
    Retry.runFull loop t 0 = (false, []) := rfl

lemma Retry.runFull_succ {V : Type} [DecidableEq V]
    (loop : List (ActionSpec V)) (t k : Nat) :
    Retry.runFull loop t (k + 1) =
      if (Retry.runAttempt loop t).fst then
        (true, [(Retry.runAttempt loop t).snd])
      else
        ((Retry.runFull loop (t + 1) k).fst,
          (Retry.runAttempt loop t).snd :: (Retry.runFull loop (t + 1) k).snd) := rfl

lemma Retry.runAttempt_passes {V : Type} [DecidableEq V]
    (loop : List (ActionSpec V)) (t : Nat) (h : ∀ a ∈ loop, a.passes t) :
    Retry.runAttempt loop t = (true, loop.length) := by
  induction loop with
  | nil => rfl
  | cons a rest ih =>
    obtain ⟨r, hbeh, hexp⟩ := h a (List.mem_cons_self a rest)
    have hrest := ih (fun b hb => h b (List.mem_cons_of_mem a hb))
    rcases hexp with hnone | hsome
    · simp [Retry.runAttempt, hbeh, hnone, hrest]
    · simp [Retry.runAttempt, hbeh, hsome, hrest]

lemma Retry.runAttempt_fails {V : Type} [DecidableEq V]
    (pre post : List (ActionSpec V)) (a : ActionSpec V) (t : Nat)
    (hpre : ∀ b ∈ pre, b.passes t) (ha : a.fails t) :
    Retry.runAttempt (pre ++ a :: post) t = (false, pre.length + 1) := by
  induction pre with
  | nil =>
    rcases ha with ⟨e, he⟩ | ⟨r, w, hr, hw, hne⟩
    · simp [Retry.runAttempt, he]
    · simp [Retry.runAttempt, hr, hw, hne]
  | cons b pre ih =>
    obtain ⟨r, hbeh, hexp⟩ := hpre b (List.mem_cons_self b pre)
    have hpre' := ih (fun c hc => hpre c (List.mem_cons_of_mem b hc))
    rcases hexp with hnone | hsome
    · simp [Retry.runAttempt, hbeh, hnone, hpre']
    · simp [Retry.runAttempt, hbeh, hsome, hpre']

lemma Retry.runFull_const_fail {V : Type} [DecidableEq V]
    (loop : List (ActionSpec V)) (k : Nat)
    (h : ∀ t, Retry.runAttempt loop t = (false, k)) :
    ∀ R t, Retry.runFull loop t R = (false, List.replicate R k) := by
  intro R
  induction R with
  | zero => intro t; rfl
  | succ n ih =>
    intro t
    rw [Retry.runFull_succ, h t, ih (t + 1)]
    simp [List.replicate_succ]

lemma length_filter_replicate_of_true (f : Nat → Bool) (x : Nat)
    (h : f x = true) (n : Nat) :
    ((List.replicate n x).filter f).length = n := by
  induction n with
  | zero => rfl
  | succ m ih => simp [List.replicate_succ, List.filter_cons, h, ih]

/-- Concrete deferred actions used by the closed instances below: one that
always returns `0` with no expectation, one whose result `7` meets its
expectation, one that always raises, and one whose result `0` never matches
its expected value `1`. -/
def okAct : ActionSpec Nat := ⟨fun _ => .ok 0, none⟩

def expAct : ActionSpec Nat := ⟨fun _ => .ok 7, some 7⟩

def failAct : ActionSpec Nat := ⟨fun _ => .error (), none⟩

def mismatchAct : ActionSpec Nat := ⟨fun _ => .ok 0, some 1⟩

/-- C1: for a list of deferred actions with mixed expectations in which the
actions before position `k = pre.length + 1` all pass on attempt 1 and the
action at position `k` is the first to raise or to return a result unequal
to its declared expected value, `run` with `retries = 1` returns `false`
and no action at a position beyond `k` is invoked during the run. -/
theorem retry_first_failure_short_circuits {V : Type} [DecidableEq V]
    (pre post : List (ActionSpec V)) (a : ActionSpec V) (delay j : Nat)
    (hpre : ∀ b ∈ pre, b.passes 1) (ha : a.fails 1)
    (hj : pre.length + 1 < j) :
    Retry.run ⟨pre ++ a :: post, false⟩ 1 delay = false ∧
      Retry.invocations (pre ++ a :: post) 1 j = 0 := by
  have hA := Retry.runAttempt_fails pre post a 1 hpre ha
  have hnle : ¬ (j ≤ pre.length + 1) := by omega
  have hstep := Retry.runFull_succ (pre ++ a :: post) 1 0
  rw [hA] at hstep
  norm_num [Retry.runFull_zero] at hstep
  constructor
  · simp [Retry.run, hstep]
  · simp [Retry.invocations, hstep, List.filter_cons, hnle]

theorem retry_first_failure_short_circuits_witness :
    Retry.run ⟨[mismatchAct, failAct], false⟩ 1 0 = false ∧
      Retry.invocations [mismatchAct, failAct] 1 2 = 0 :=
  retry_first_failure_short_circuits [] [failAct] mismatchAct 0 2
    (by intro b hb; cases hb)
    (Or.inr ⟨0, 1, rfl, rfl, by decide⟩)
    (by decide)

/-- C2 counterexample: the claim also asserts that `run` always performs at
least one attempt.  With `retries = 0` the Python loop
`for attempt in range(1, 0 + 1)` has an empty range, so even a sequencer
whose single action always succeeds performs zero attempts and `run`
returns `false` instead of the claimed `true` after one attempt. -/
theorem run_zero_retries_no_attempt :
    Retry.run ⟨[okAct], false⟩ 0 0 = false ∧
      Retry.attemptsMade [okAct] 0 = 0 :=
  ⟨rfl, rfl⟩

/-- C2 (amended): for an action list in which every action succeeds on the
first attempt and every present expectation is met, `run(retries, delay)`
with any `retries ≥ 1` performs exactly one attempt and returns `true`;
with `retries = 0` (see the counterexample) no attempt is performed. -/
theorem run_success_single_attempt {V : Type} [DecidableEq V]
    (loop : List (ActionSpec V)) (retries delay : Nat)
    (hall : ∀ a ∈ loop, a.passes 1) (hr : 1 ≤ retries) :
    Retry.run ⟨loop, false⟩ retries delay = true ∧
      Retry.attemptsMade loop retries = 1 := by
  obtain ⟨m, rfl⟩ : ∃ m, retries = m + 1 := ⟨retries - 1, by omega⟩
  have hA := Retry.runAttempt_passes loop 1 hall
  have hstep := Retry.runFull_succ loop 1 m
  rw [hA] at hstep
  norm_num at hstep
  constructor
  · simp [Retry.run, hstep]
  · simp [Retry.attemptsMade, hstep]

theorem run_success_single_attempt_witness :
    Retry.run ⟨[okAct, expAct], false⟩ 5 0 = true ∧
      Retry.attemptsMade [okAct, expAct] 5 = 1 :=
  run_success_single_attempt [okAct, expAct] 5 0
    (by
      intro a ha
      simp only [List.mem_cons, List.not_mem_nil, or_false] at ha
      rcases ha with rfl | rfl
      · exact ⟨0, rfl, Or.inl rfl⟩
      · exact ⟨7, rfl, Or.inr rfl⟩)
    (by decide)

/-- C3: for `retries = R` (`R ≥ 1`) and an action list in which, on every
attempt, the actions before position `k = pre.length + 1` pass and the
action at position `k` fails, `run` performs the full sequence from the
first action exactly `R` times and returns `false`, and every action at a
position `j ≤ k` is invoked exactly `R` times in total. -/
theorem retry_repeated_failure_full_replay {V : Type} [DecidableEq V]
    (pre post : List (ActionSpec V)) (a : ActionSpec V) (R delay j : Nat)
    (hpre : ∀ t, ∀ b ∈ pre, b.passes t) (ha : ∀ t, a.fails t)
    (hR : 1 ≤ R) (hj1 : 1 ≤ j) (hj : j ≤ pre.length + 1) :
    Retry.run ⟨pre ++ a :: post, false⟩ R delay = false ∧
      Retry.attemptsMade (pre ++ a :: post) R = R ∧
      Retry.invocations (pre ++ a :: post) R j = R := by
  have hA : ∀ t, Retry.runAttempt (pre ++ a :: post) t = (false, pre.length + 1) :=
    fun t => Retry.runAttempt_fails pre post a t (hpre t) (ha t)
  have hfull := Retry.runFull_const_fail (pre ++ a :: post) (pre.length + 1) hA R 1
  refine ⟨?_, ?_, ?_⟩
  · simp [Retry.run, hfull]
  · simp [Retry.attemptsMade, hfull]
  · have hdec : decide (j ≤ pre.length + 1) = true := by simpa using hj
    simp only [Retry.invocations, hfull]
    exact length_filter_replicate_of_true (fun n => decide (j ≤ n)) (pre.length + 1) hdec R

theorem retry_repeated_failure_full_replay_witness :
    Retry.run ⟨[okAct, failAct, okAct], false⟩ 2 0 = false ∧
      Retry.attemptsMade [okAct, failAct, okAct] 2 = 2 ∧
      Retry.invocations [okAct, failAct, okAct] 2 2 = 2 :=
  retry_repeated_failure_full_replay [okAct] [okAct] failAct 2 0 2
    (by
      intro t b hb
      simp only [List.mem_cons, List.not_mem_nil, or_false] at hb
      subst hb
      exact ⟨0, rfl, Or.inl rfl⟩)
    (fun t => Or.inl ⟨(), rfl⟩)
    (by decide) (by decide) (by decide)

/-- C4 counterexample: the claim asserts that after `run` returns, the
sequencer's action list no longer holds the executed actions and a
subsequent run does not re-execute them.  In the code, `run` never clears
`self.loop`: after running a sequencer holding one action, the list still
holds that action, and a second run invokes it again (once, not zero
times). -/
theorem retry_loop_retained :
    (Retry.runState (Retry.add_func (Retry.mkNew Nat false) okAct) 1 0).snd.loop.length = 1 ∧
      Retry.invocations
        (Retry.runState (Retry.add_func (Retry.mkNew Nat false) okAct) 1 0).snd.loop 1 1 = 1 :=
  ⟨rfl, rfl⟩

/-- C4 (amended): deferred actions are owned by the sequencer's action list
and invoked at run time, but they are retained, not discarded, after the
run: `run` leaves the instance (in particular `self.loop`) unchanged, so a
subsequent run behaves exactly like a fresh run of the same action list and
re-executes the same actions. -/
theorem retry_run_preserves_loop {V : Type} [DecidableEq V]
    (r : Retry V) (retries delay retries2 delay2 : Nat) :
    (Retry.runState r retries delay).snd = r ∧
      Retry.runState (Retry.runState r retries delay).snd retries2 delay2 =
        Retry.runState r retries2 delay2 :=
  ⟨rfl, rfl⟩

/-- The initial slot state of utils.py: the class attribute `response =
None` of `ResponseCheck` (line 4).  Python `None` is modelled as `none`. -/
def ResponseCheck.initResponse (V : Type) : Option V :=
  none

/-- Model of `ResponseCheck.set_response` (utils.py lines 6-8): overwrites the
stored value, whatever the previous state `st` was. -/
def ResponseCheck.set_response {V : Type} (st r : Option V) : Option V :=
  r

/-- Model of `ResponseCheck.get_response` (utils.py lines 10-12): returns the stored
value without clearing it. -/
def ResponseCheck.get_response {V : Type} (st : Option V) : Option V :=
  st

/-- Model of `ResponseCheck.check_response` (utils.py lines 14-18): compares the
stored value to `expected` with `==`, then assigns `cls.response = None`,
and returns the comparison result together with the new state. -/
def ResponseCheck.check_response {V : Type} [DecidableEq V]
    (st expected : Option V) : Bool × Option V :=
  (decide (st = expected), none)

/-- C5 counterexample: the claim quantifies over every value `x`, but the
cleared slot state is exactly the Python value `None`, so for `x = None`
the second `check(x)` (with no intervening `set`) compares `None == None`
and returns `true`, not the claimed `false`. -/
theorem slot_consume_once_none :
    (ResponseCheck.check_response
      (ResponseCheck.check_response
        (ResponseCheck.set_response (ResponseCheck.initResponse Nat) none)
        none).snd
      none).fst = true :=
  rfl

/-- C5 (amended): for every value `x` other than `None`, after `set(x)`
(from any prior state) `check(x)` returns `true`, and an immediately
subsequent `check(x)` with no intervening `set` returns `false`, because
`check` unconditionally clears the stored value to `None`.  For `x = None`
the second `check` returns `true` instead (see the counterexample), since
the cleared state is indistinguishable from a stored `None`. -/
theorem slot_consume_once {V : Type} [DecidableEq V]
    (st x : Option V) (hx : x ≠ none) :
    (ResponseCheck.check_response (ResponseCheck.set_response st x) x).fst = true ∧
      (ResponseCheck.check_response
        (ResponseCheck.check_response (ResponseCheck.set_response st x) x).snd
        x).fst = false := by
  constructor
  · simp [ResponseCheck.check_response, ResponseCheck.set_response]
  · simp only [ResponseCheck.check_response, ResponseCheck.set_response,
      decide_eq_false_iff_not]
    exact fun h => hx h.symm

theorem slot_consume_once_witness :
    (ResponseCheck.check_response
      (ResponseCheck.set_response (ResponseCheck.initResponse Nat) (some 3))
      (some 3)).fst = true ∧
      (ResponseCheck.check_response
        (ResponseCheck.check_response
          (ResponseCheck.set_response (ResponseCheck.initResponse Nat) (some 3))
          (some 3)).snd
        (some 3)).fst = false :=
  slot_consume_once (ResponseCheck.initResponse Nat) (some 3) (by decide)

/-- C6 counterexample: the claim quantifies over every value `x`, but in
the initial, never-set state the slot holds the Python value `None`, so
`check(None)` returns `true`, not the claimed `false`. -/
theorem slot_check_initial_none :
    (ResponseCheck.check_response (ResponseCheck.initResponse Nat) none).fst = true :=
  rfl

/-- C6 (amended): for every value `x` other than `None`, calling `check(x)`
in the initial, never-set state returns `false`; the call never raises (the
model is a total function: the comparison and the clearing assignment are
defined for every input).  For `x = None` it returns `true` instead (see
the counterexample). -/
theorem slot_check_initial_false {V : Type} [DecidableEq V]
    (x : Option V) (hx : x ≠ none) :
    (ResponseCheck.check_response (ResponseCheck.initResponse V) x).fst = false := by
  simp only [ResponseCheck.check_response, ResponseCheck.initResponse,
    decide_eq_false_iff_not]
  exact fun h => hx h.symm

theorem slot_check_initial_false_witness :
    (ResponseCheck.check_response (ResponseCheck.initResponse Nat) (some 0)).fst = false :=
  slot_check_initial_false (some 0) (by decide)

/-- Python `str.split(sep)` for a one-character separator: splits at every
occurrence of `sep`; the empty string splits to a single empty piece, and
the result is always nonempty. -/
def pySplit (sep : Char) : List Char → List (List Char)
  | [] => [[]]
  | c :: rest =>
    match pySplit sep rest with
    | [] => [[]]
    | h :: t => if c = sep then [] :: h :: t else (c :: h) :: t

/-- Python `str.lower()`, character by character (the repository only ever
lowercases ASCII file names). -/
def pyLower (s : List Char) : List Char :=
  s.map Char.toLower

/-- Python `str.removesuffix(suffix)`: when the string ends with `suffix`,
drop that many trailing characters; otherwise return the string
unchanged. -/
def removesuffix (suf s : List Char) : List Char :=
  if suf.isSuffixOf s then s.take (s.length - suf.length) else s

/-- Python f-string interpolation of a possibly-`None` string value:
`None` renders as the four characters `None`. -/
def pyFStr (v : Option (List Char)) : List Char :=
  match v with
  | none => "None".toList
  | some s => s

/-- One vendor JSON report record as consumed by `ReportDetails.__init__`
(example.py lines 46-82): the values of the seven expected keys, each
`none` when the key is absent from the record (`dict.get` then yields
`None`). -/
structure VendorRecord where
  Id : Option (List Char)
  ReportFileName : Option (List Char)
  ReportName : Option (List Char)
  ReportStatus : Option (List Char)
  ReportDate : Option (List Char)
  ReportDateStr : Option (List Char)
  ErrorMessage : Option (List Char)

/-- The fields of a constructed `ReportDetails` (example.py lines 42-82),
in the order `__init__` assigns them. -/
structure ReportDetails where
  id : Option (List Char)
  server_filepath : List Char
  filename_ext : List Char
  filetype : List Char
  filename : List Char
  report_type : Option (List Char)
  status : Option (List Char)
  download_url : List Char
  report_date : Option (List Char)
  report_date_str : Option (List Char)
  error_message : Option (List Char)

/-- Model of `ReportDetails.__init__(**kwargs)` (example.py lines 46-82).  When the
`ReportFileName` key is absent, `kwargs.get` yields `None` and
`self.server_filepath.split` raises `AttributeError` (`None` has no
`split`), modelled as `Except.error`.  Otherwise: `filename_ext` is the
last Windows-path component of the server path, lowercased; `filetype` is
the part of `filename_ext` after the last dot; `filename` is
`filename_ext` with the suffix `"." + filetype` removed; the download URL
interpolates the id, the server path and the status into a fixed
template; every remaining field is the raw (possibly absent) value of its
key. -/
def ReportDetails.ofKwargs (kwargs : VendorRecord) : Except Unit ReportDetails :=
  match kwargs.ReportFileName with
  | none => .error ()
  | some fp =>
    .ok
      ⟨kwargs.Id,
        fp,
        pyLower ((pySplit '\\' fp).getLastD []),
        (pySplit '.' (pyLower ((pySplit '\\' fp).getLastD []))).getLastD [],
        removesuffix
          ('.' :: (pySplit '.' (pyLower ((pySplit '\\' fp).getLastD []))).getLastD [])
          (pyLower ((pySplit '\\' fp).getLastD [])),
        kwargs.ReportName,
        kwargs.ReportStatus,
        "https://etivity.comops.biz/ERP/RequestPreview/PrintPreview?reportRequestId=".toList
          ++ pyFStr kwargs.Id ++ "&reportName=\\".toList ++ fp
          ++ "&reportStatus=".toList ++ pyFStr kwargs.ReportStatus,
        kwargs.ReportDate,
        kwargs.ReportDateStr,
        kwargs.ErrorMessage⟩

lemma toNat_ofNat_valid {m : Nat} (h : m.isValidChar) :
    (Char.ofNat m).toNat = m := by
  simp [Char.ofNat, h, Char.ofNatAux, Char.toNat, UInt32.toNat, BitVec.toNat_ofNatLt]

lemma toLower_eq_dot {c : Char} (h : c.toLower = '.') : c = '.' := by
  rw [show Char.toLower c =
      if c.toNat ≥ 65 ∧ c.toNat ≤ 90 then Char.ofNat (c.toNat + 32) else c from rfl] at h
  by_cases hc : c.toNat ≥ 65 ∧ c.toNat ≤ 90
  · exfalso
    rw [if_pos hc] at h
    have hv : (c.toNat + 32).isValidChar := Or.inl (by omega)
    have heq := congrArg Char.toNat h
    rw [toNat_ofNat_valid hv] at heq
    have h46 : ('.' : Char).toNat = 46 := rfl
    omega
  · rw [if_neg hc] at h
    exact h

lemma dot_not_mem_pyLower {s : List Char} (h : '.' ∉ s) : '.' ∉ pyLower s := by
  intro hmem
  rcases List.mem_map.mp hmem with ⟨c, hc, hlow⟩
  exact h (toLower_eq_dot hlow ▸ hc)

lemma pySplit_of_not_mem {sep : Char} {s : List Char} (h : sep ∉ s) :
    pySplit sep s = [s] := by
  induction s with
  | nil => rfl
  | cons c rest ih =>
    have hc : ¬ (c = sep) := by
      intro e
      exact h (by rw [← e]; exact List.mem_cons_self c rest)
    have hrest := ih (fun m => h (List.mem_cons_of_mem c m))
    simp [pySplit, hrest, hc]

lemma removesuffix_of_longer {suf s : List Char} (h : s.length < suf.length) :
    removesuffix suf s = s := by
  have hns : ¬ (suf.isSuffixOf s = true) := by
    rw [List.isSuffixOf_iff_suffix]
    intro hsuf
    exact absurd hsuf.length_le (by omega)
  simp [removesuffix, hns]

lemma ofKwargs_fields (kwargs : VendorRecord) (p : List Char)
    (hfp : kwargs.ReportFileName = some p) :
    ∃ rd, ReportDetails.ofKwargs kwargs = .ok rd ∧
      rd.id = kwargs.Id ∧
      rd.server_filepath = p ∧
      rd.filename_ext = pyLower ((pySplit '\\' p).getLastD []) ∧
      rd.filetype = (pySplit '.' rd.filename_ext).getLastD [] ∧
      rd.filename = removesuffix ('.' :: rd.filetype) rd.filename_ext ∧
      rd.report_type = kwargs.ReportName ∧
      rd.status = kwargs.ReportStatus ∧
      rd.report_date = kwargs.ReportDate ∧
      rd.report_date_str = kwargs.ReportDateStr ∧
      rd.error_message = kwargs.ErrorMessage := by
  cases kwargs with
  | mk i f rn rs d ds e =>
    subst hfp
    exact ⟨_, rfl, rfl, rfl, rfl, rfl, rfl, rfl, rfl, rfl, rfl, rfl⟩

/-- C7 counterexample: for a vendor record from which every expected key is
absent, constructing a Report Descriptor raises instead of yielding absent
fields: `kwargs.get("ReportFileName")` is `None`, so the immediately
following `self.server_filepath.split("\\")` raises `AttributeError`. -/
theorem report_missing_filename_raises :
    ReportDetails.ofKwargs ⟨none, none, none, none, none, none, none⟩ = .error () :=
  rfl

/-- C7 (amended): for a vendor record in which the `ReportFileName` key is
present, construction does not raise, and every other absent key yields an
absent (`None`) field in the constructed descriptor, propagated downstream
rather than rejected early; when `ReportFileName` itself is absent,
construction raises an `AttributeError` (see the counterexample). -/
theorem report_missing_keys_propagate (kwargs : VendorRecord) (p : List Char)
    (hfp : kwargs.ReportFileName = some p) :
    (ReportDetails.ofKwargs kwargs).toOption.isSome = true ∧
      (ReportDetails.ofKwargs kwargs).toOption.map ReportDetails.id = some kwargs.Id ∧
      (ReportDetails.ofKwargs kwargs).toOption.map ReportDetails.report_type =
        some kwargs.ReportName ∧
      (ReportDetails.ofKwargs kwargs).toOption.map ReportDetails.status =
        some kwargs.ReportStatus ∧
      (ReportDetails.ofKwargs kwargs).toOption.map ReportDetails.report_date =
        some kwargs.ReportDate ∧
      (ReportDetails.ofKwargs kwargs).toOption.map ReportDetails.report_date_str =
        some kwargs.ReportDateStr ∧
      (ReportDetails.ofKwargs kwargs).toOption.map ReportDetails.error_message =
        some kwargs.ErrorMessage := by
  obtain ⟨rd, hok, h1, h2, h3, h4, h5, h6, h7, h8, h9, h10⟩ := ofKwargs_fields kwargs p hfp
  rw [hok]
  simp [Except.toOption, h1, h6, h7, h8, h9, h10]

theorem report_missing_keys_propagate_witness :
    (ReportDetails.ofKwargs
        ⟨none, some "C:\\a.csv".toList, none, none, none, none, none⟩).toOption.isSome = true ∧
      (ReportDetails.ofKwargs
        ⟨none, some "C:\\a.csv".toList, none, none, none, none, none⟩).toOption.map
        ReportDetails.id = some none ∧
      (ReportDetails.ofKwargs
        ⟨none, some "C:\\a.csv".toList, none, none, none, none, none⟩).toOption.map
        ReportDetails.report_type = some none ∧
      (ReportDetails.ofKwargs
        ⟨none, some "C:\\a.csv".toList, none, none, none, none, none⟩).toOption.map
        ReportDetails.status = some none ∧
      (ReportDetails.ofKwargs
        ⟨none, some "C:\\a.csv".toList, none, none, none, none, none⟩).toOption.map
        ReportDetails.report_date = some none ∧
      (ReportDetails.ofKwargs
        ⟨none, some "C:\\a.csv".toList, none, none, none, none, none⟩).toOption.map
        ReportDetails.report_date_str = some none ∧
      (ReportDetails.ofKwargs
        ⟨none, some "C:\\a.csv".toList, none, none, none, none, none⟩).toOption.map
        ReportDetails.error_message = some none :=
  report_missing_keys_propagate
    ⟨none, some "C:\\a.csv".toList, none, none, none, none, none⟩
    "C:\\a.csv".toList rfl

/-- C9: for the input `ReportFileName = "C:\\out\\Weekly Report.PDF"`, the
constructed Report Descriptor has `filename_ext = "weekly report.pdf"`
(the last Windows-path component, lowercased), `filetype = "pdf"` (the
part after the last dot), and `filename = "weekly report"` (the filename
with the dot-extension suffix stripped). -/
theorem report_windows_path_fields :
    ((ReportDetails.ofKwargs
        ⟨none, some "C:\\out\\Weekly Report.PDF".toList,
          none, none, none, none, none⟩).toOption.map ReportDetails.filename_ext,
      (ReportDetails.ofKwargs
        ⟨none, some "C:\\out\\Weekly Report.PDF".toList,
          none, none, none, none, none⟩).toOption.map ReportDetails.filetype,
      (ReportDetails.ofKwargs
        ⟨none, some "C:\\out\\Weekly Report.PDF".toList,
          none, none, none, none, none⟩).toOption.map ReportDetails.filename) =
      (some "weekly report.pdf".toList, some "pdf".toList,
        some "weekly report".toList) := by
  decide

/-- C10: for every `ReportFileName` whose final Windows-path component
contains no dot, construction does not raise, the derived `filetype` is
the entire lowercased filename (splitting on dots leaves a single piece),
and `filename` equals `filename_ext` unchanged (the dot-extension suffix
is one character longer than the filename, hence never a suffix of it). -/
theorem report_no_extension_fields (kwargs : VendorRecord) (p L : List Char)
    (hfp : kwargs.ReportFileName = some p)
    (hL : (pySplit '\\' p).getLastD [] = L)
    (hdot : '.' ∉ L) :
    (ReportDetails.ofKwargs kwargs).toOption.isSome = true ∧
      (ReportDetails.ofKwargs kwargs).toOption.map ReportDetails.filetype =
        (ReportDetails.ofKwargs kwargs).toOption.map ReportDetails.filename_ext ∧
      (ReportDetails.ofKwargs kwargs).toOption.map ReportDetails.filename =
        (ReportDetails.ofKwargs kwargs).toOption.map ReportDetails.filename_ext := by
  cases kwargs with
  | mk i f rn rs d ds e =>
    subst hfp
    subst hL
    have hdl : '.' ∉ pyLower ((pySplit '\\' p).getLastD []) :=
      dot_not_mem_pyLower hdot
    have hsp : pySplit '.' (pyLower ((pySplit '\\' p).getLastD [])) =
        [pyLower ((pySplit '\\' p).getLastD [])] :=
      pySplit_of_not_mem hdl
    have hrs : removesuffix ('.' :: pyLower ((pySplit '\\' p).getLastD []))
        (pyLower ((pySplit '\\' p).getLastD [])) =
        pyLower ((pySplit '\\' p).getLastD []) :=
      removesuffix_of_longer (by simp)
    simp only [List.getLastD_eq_getLast?] at hsp hrs
    refine ⟨rfl, ?_, ?_⟩
    · simp [ReportDetails.ofKwargs, Except.toOption, hsp]
    · simp [ReportDetails.ofKwargs, Except.toOption, hsp, hrs]

theorem report_no_extension_fields_witness :
    (ReportDetails.ofKwargs
        ⟨none, some "C:\\out\\README".toList,
          none, none, none, none, none⟩).toOption.isSome = true ∧
      (ReportDetails.ofKwargs
        ⟨none, some "C:\\out\\README".toList,
          none, none, none, none, none⟩).toOption.map ReportDetails.filetype =
        (ReportDetails.ofKwargs
          ⟨none, some "C:\\out\\README".toList,
            none, none, none, none, none⟩).toOption.map ReportDetails.filename_ext ∧
      (ReportDetails.ofKwargs
        ⟨none, some "C:\\out\\README".toList,
          none, none, none, none, none⟩).toOption.map ReportDetails.filename =
        (ReportDetails.ofKwargs
          ⟨none, some "C:\\out\\README".toList,
            none, none, none, none, none⟩).toOption.map ReportDetails.filename_ext :=
  report_no_extension_fields
    ⟨none, some "C:\\out\\README".toList, none, none, none, none, none⟩
    "C:\\out\\README".toList "README".toList rfl (by decide) (by decide)

/-- Python list indexing `data[report_index]` for a nonnegative index:
raises `IndexError` when the index is out of range. -/
def pyIndex {α : Type} (l : List α) (i : Nat) : Except Unit α :=
  match l.get? i with
  | some a => .ok a
  | none => .error ()

/-- The value of `ReportStatus.Processing` from constants/enums.py. -/
def processingStatus : List Char :=
  "Processing".toList

/-- Model of `get_report_details(page, report_index)` (example.py lines 293-310),
evaluated against the finite list of poll responses the portal produces,
in order.  Each element models the parsed JSON of one `RequestPreview`
response: `some data` is the value of its `"Data"` key, `none` a response
without that key (indexing into `None` then raises a `TypeError`).  Each
iteration reloads the page (one poll), takes the record at
`report_index` (out of range raises `IndexError`), constructs a
`ReportDetails` (which may itself raise), and returns it unless its
status equals `"Processing"`, in which case it sleeps and polls again.
The `if not response_info` branch of the source never fires (the context
manager object is always truthy) and is omitted.  The result carries the
number of polls performed; `.ok none` means every supplied response was
still `Processing`, so the Python loop would continue polling beyond the
modelled responses. -/
def get_report_details (report_index : Nat) :
    List (Option (List VendorRecord)) → Nat → Except Unit (Option (ReportDetails × Nat))
  | [], _ => .ok none
  | r :: rest, polls =>
    match r with
    | none => .error ()
    | some data =>
      match pyIndex data report_index with
      | .error e => .error e
      | .ok record =>
        match ReportDetails.ofKwargs record with
        | .error e => .error e
        | .ok report =>
          if report.status = some processingStatus then
            get_report_details report_index rest (polls + 1)
          else
            .ok (some (report, polls + 1))

lemma get_report_details_processing_step
    (q : VendorRecord × List VendorRecord) (rest : List (Option (List VendorRecord)))
    (polls : Nat) (hfp : ∃ p, q.fst.ReportFileName = some p)
    (hst : q.fst.ReportStatus = some processingStatus) :
    get_report_details 0 (some (q.fst :: q.snd) :: rest) polls =
      get_report_details 0 rest (polls + 1) := by
  obtain ⟨p, hp⟩ := hfp
  obtain ⟨rd, hok, h1, h2, h3, h4, h5, h6, h7, h8, h9, h10⟩ := ofKwargs_fields q.fst p hp
  have hcond : rd.status = some processingStatus := by rw [h7]; exact hst
  simp [get_report_details, pyIndex, hok, hcond]

lemma get_report_details_stop
    (stopRec : VendorRecord) (tail : List VendorRecord)
    (rest : List (Option (List VendorRecord))) (polls : Nat)
    (p : List Char) (hp : stopRec.ReportFileName = some p)
    (hst : stopRec.ReportStatus ≠ some processingStatus) :
    ∃ rd, ReportDetails.ofKwargs stopRec = .ok rd ∧
      get_report_details 0 (some (stopRec :: tail) :: rest) polls =
        .ok (some (rd, polls + 1)) := by
  obtain ⟨rd, hok, h1, h2, h3, h4, h5, h6, h7, h8, h9, h10⟩ := ofKwargs_fields stopRec p hp
  have hcond : ¬ (rd.status = some processingStatus) := by rw [h7]; exact hst
  exact ⟨rd, hok, by simp [get_report_details, pyIndex, hok, hcond]⟩

lemma poll_aux (stopRec : VendorRecord) (tail : List VendorRecord)
    (rest : List (Option (List VendorRecord)))
    (p : List Char) (hp : stopRec.ReportFileName = some p)
    (hst : stopRec.ReportStatus ≠ some processingStatus) :
    ∀ pre : List (VendorRecord × List VendorRecord),
      (∀ q ∈ pre, (∃ w, q.fst.ReportFileName = some w) ∧
        q.fst.ReportStatus = some processingStatus) →
      ∀ polls, ∃ rd, ReportDetails.ofKwargs stopRec = .ok rd ∧
        get_report_details 0
          (pre.map (fun q => some (q.fst :: q.snd)) ++ some (stopRec :: tail) :: rest)
          polls =
          .ok (some (rd, polls + pre.length + 1)) := by
  intro pre
  induction pre with
  | nil =>
    intro hpre polls
    simpa using get_report_details_stop stopRec tail rest polls p hp hst
  | cons q pre ih =>
    intro hpre polls
    have hq := hpre q (List.mem_cons_self q pre)
    obtain ⟨rd, hok, hres⟩ :=
      ih (fun q' hq' => hpre q' (List.mem_cons_of_mem q hq')) (polls + 1)
    refine ⟨rd, hok, ?_⟩
    rw [List.map_cons, List.cons_append,
      get_report_details_processing_step q _ polls hq.1 hq.2, hres]
    have heq : polls + 1 + pre.length + 1 = polls + (q :: pre).length + 1 := by
      simp only [List.length_cons]
      omega
    rw [heq]

/-- C8: for the poll loop at the default index 0, whenever the first
`pre.length` poll responses all carry (at index 0) a well-formed record
whose status is `Processing` and the next response carries a well-formed
record whose status is anything other than `Processing`, the loop performs
exactly `pre.length + 1` polls and returns the Report Descriptor
constructed from that first non-`Processing` response.  In particular,
for three successive responses with statuses `Processing`, `Processing`,
`Completed`, it performs exactly 3 polls and returns the descriptor of
the third response (see the witness). -/
theorem poll_returns_first_non_processing
    (pre : List (VendorRecord × List VendorRecord))
    (stopRec : VendorRecord) (tail : List VendorRecord)
    (rest : List (Option (List VendorRecord)))
    (hpre : ∀ q ∈ pre, (∃ w, q.fst.ReportFileName = some w) ∧
      q.fst.ReportStatus = some processingStatus)
    (p : List Char) (hp : stopRec.ReportFileName = some p)
    (hst : stopRec.ReportStatus ≠ some processingStatus) :
    (ReportDetails.ofKwargs stopRec).toOption.isSome = true ∧
      get_report_details 0
        (pre.map (fun q => some (q.fst :: q.snd)) ++ some (stopRec :: tail) :: rest) 0 =
        .ok ((ReportDetails.ofKwargs stopRec).toOption.map
          (fun rd => (rd, pre.length + 1))) := by
  obtain ⟨rd, hok, hres⟩ := poll_aux stopRec tail rest p hp hst pre hpre 0
  rw [hok]
  refine ⟨rfl, ?_⟩
  simpa using hres

/-- The two concrete vendor records of the three-poll scenario: a report
still `Processing` and the same report `Completed`. -/
def procRecord : VendorRecord :=
  ⟨none, some "C:\\r.csv".toList, none, some "Processing".toList, none, none, none⟩

def doneRecord : VendorRecord :=
  ⟨none, some "C:\\r.csv".toList, none, some "Completed".toList, none, none, none⟩

theorem poll_returns_first_non_processing_witness :
    (ReportDetails.ofKwargs doneRecord).toOption.isSome = true ∧
      get_report_details 0 [some [procRecord], some [procRecord], some [doneRecord]] 0 =
        .ok ((ReportDetails.ofKwargs doneRecord).toOption.map (fun rd => (rd, 3))) :=
  poll_returns_first_non_processing
    [(procRecord, []), (procRecord, [])] doneRecord [] []
    (by
      intro q hq
      simp only [List.mem_cons, List.not_mem_nil, or_false] at hq
      rcases hq with rfl | rfl
      · exact ⟨⟨"C:\\r.csv".toList, rfl⟩, rfl⟩
      · exact ⟨⟨"C:\\r.csv".toList, rfl⟩, rfl⟩)
    "C:\\r.csv".toList rfl (by decide)
